import Mathlib

/-!
Verification of the amino-acid tracker's discovery-and-extraction pipeline.

This file shallowly embeds the Python modules of `backend/app` that the
verified properties talk about:

  * `app/failed_searches.py`  — query normalisation and failed-search logging
  * `app/crud.py`             — amino-acid fact upsert, publication-source dedup
  * `app/papers/ranker.py`    — heuristic paper scoring and ranking
  * `app/papers/table_extractor.py` — unit normalisation and row extraction
  * `app/papers/extractor.py` — offline-first full-text cache
  * `app/etl/process_failed_searches.py`, `app/papers/pipeline.py`,
    `app/papers/extract_pipeline.py` — per-stage batch selection

Modelling conventions:
  * Python `float` arithmetic is modelled as exact rational arithmetic (`ℚ`);
    the one transcendental step (the logistic squash in the ranker) is
    modelled over `ℝ` with real exponentiation.
  * Mutable database tables are modelled as Lean lists of rows; a function
    that mutates a row returns the updated store.  `SELECT ... LIMIT 1` /
    `.first()` is modelled as "first matching element of the list".
  * Python string truthiness (`if s:`) is modelled explicitly: an `Option
    String` is truthy iff it is `some s` with `s ≠ ""`.
  * Character classes of the CPython `re` patterns are modelled over ASCII.
-/

/-! ### Character and string helpers shared by several modules -/

/-- Python's `\s` class (ASCII part): space, tab, newline, carriage return,
vertical tab, form feed. -/
def pyIsSpace (c : Char) : Bool :=
  c = ' ' ∨ c = '\t' ∨ c = '\n' ∨ c = '\r' ∨ c = '\x0b' ∨ c = '\x0c'

/-- Python's `str.strip()` on a character list: drop whitespace from both
ends. -/
def pyStrip (l : List Char) : List Char :=
  ((l.dropWhile pyIsSpace).reverse.dropWhile pyIsSpace).reverse

/-- Lowercase every character (Python `str.lower()`, ASCII part). -/
def toLowerL (l : List Char) : List Char := l.map Char.toLower

/-- Uppercase every character (Python `str.upper()`, ASCII part). -/
def toUpperL (l : List Char) : List Char := l.map Char.toUpper

/-- Collapse-whitespace worker: `inRun` records whether the previous
character belonged to a whitespace run already emitted as one space. -/
def collapseWsAux : Bool → List Char → List Char
  | _, [] => []
  | inRun, c :: t =>
    if pyIsSpace c then
      if inRun then collapseWsAux true t
      else ' ' :: collapseWsAux true t
    else c :: collapseWsAux false t

/-- Replace every maximal run of whitespace by a single space
(the effect of `re.sub(r"\s+", " ", s)` and of `" ".join(s.split())`
on already-stripped input). -/
def collapseWs (l : List Char) : List Char := collapseWsAux false l

/-- Substring test: does `needle` occur contiguously inside `hay`?
This is Python's `needle in hay` on strings. -/
def containsSub (hay needle : List Char) : Bool :=
  needle.isPrefixOf hay ||
    match hay with
    | [] => false
    | _ :: t => containsSub t needle

/-- Number of positions of `hay` at which `needle` starts (occurrence count,
counting overlapping occurrences).  Used only to state the per-occurrence
reading of the spec against the per-phrase behaviour of the code. -/
def countOcc (hay needle : List Char) : Nat :=
  match hay with
  | [] => if needle.isEmpty then 1 else 0
  | _ :: t => (if needle.isPrefixOf hay then 1 else 0) + countOcc t needle

/-- Python slicing `s[:n]` on strings. -/
def takeStr (n : Nat) (s : String) : String := String.mk (s.data.take n)

/-- Embedding of `s.lower()` at `String` level. -/
def lowerS (s : String) : String := String.mk (toLowerL s.data)

/-- Embedding of `s.upper()` at `String` level. -/
def upperS (s : String) : String := String.mk (toUpperL s.data)

/-- Embedding of `s.strip()` at `String` level. -/
def pyStripS (s : String) : String := String.mk (pyStrip s.data)

/-- Python truthiness of an optional string: `None` and `""` are falsy. -/
def pyTruthyO : Option String → Bool
  | none => false
  | some s => !(s == "")

/-- Python `a or b` for optional strings: keep `a` unless it is falsy. -/
def pyOr (a b : Option String) : Option String :=
  match a with
  | some s => if s = "" then b else some s
  | none => b

/-! ### A generic "find first matching row, update it, else append" helper

`SELECT ... WHERE p` followed by either an in-place `UPDATE` of the first
match or an `INSERT` is the shape shared by `log_failed_search`,
`get_or_create_publication_source` and `upsert_food_amino_acid`. -/

/-- Walk the store; replace the first row satisfying `p` by `u` applied to
it, or append `fresh` if no row matches.  Returns the affected row together
with the updated store. -/
def updateFirstOrAppend (p : α → Bool) (u : α → α) (fresh : α) :
    List α → α × List α
  | [] => (fresh, [fresh])
  | x :: rest =>
    if p x then (u x, u x :: rest)
    else
      let res := updateFirstOrAppend p u fresh rest
      (res.1, x :: res.2)

theorem updateFirstOrAppend_not_found {α : Type _} (p : α → Bool) (u : α → α)
    (fresh : α) : ∀ (l : List α), (∀ x ∈ l, p x = false) →
    updateFirstOrAppend p u fresh l = (fresh, l ++ [fresh])
  | [], _ => rfl
  | x :: rest, h => by
    have hx : p x = false := h x (List.mem_cons_self x rest)
    have ih := updateFirstOrAppend_not_found p u fresh rest
      (fun y hy => h y (List.mem_cons_of_mem x hy))
    simp [updateFirstOrAppend, hx, ih]

theorem updateFirstOrAppend_found {α : Type _} (p : α → Bool) (u : α → α)
    (fresh : α) : ∀ (l₁ : List α) (r : α) (l₂ : List α),
    (∀ x ∈ l₁, p x = false) → p r = true →
    updateFirstOrAppend p u fresh (l₁ ++ r :: l₂) = (u r, l₁ ++ u r :: l₂)
  | [], r, l₂, _, hr => by simp [updateFirstOrAppend, hr]
  | x :: rest, r, l₂, h, hr => by
    have hx : p x = false := h x (List.mem_cons_self x rest)
    have ih := updateFirstOrAppend_found p u fresh rest r l₂
      (fun y hy => h y (List.mem_cons_of_mem x hy)) hr
    simp [updateFirstOrAppend, hx, ih]

/-! ### `app/papers/table_extractor.py` -/

/-- Canonical essential amino acids with their row-text aliases
(`AMINO_ALIASES`), in source order. -/
def AMINO_ALIASES : List (String × List String) :=
  [("lysine", ["lysine", "lys"]),
   ("leucine", ["leucine", "leu"]),
   ("isoleucine", ["isoleucine", "ile"]),
   ("valine", ["valine", "val"]),
   ("threonine", ["threonine", "thr"]),
   ("tryptophan", ["tryptophan", "trp"]),
   ("methionine", ["methionine", "met"]),
   ("phenylalanine", ["phenylalanine", "phe"]),
   ("histidine", ["histidine", "his"])]

/-- Embedding of `units.lower().replace(" ", "")` — the canonical form the unit string is
reduced to before the table lookup. -/
def canonUnits (units : String) : String :=
  String.mk ((toLowerL units.data).filter (fun c => !(c == ' ')))

/-- Embedding of `normalize_to_mg_per_100g`: convert `(amount, units)` to mg per 100 g
using the fixed conversion table; unknown units yield `none`.  The
`try/except` around the pure arithmetic in the source can never fire and is
not modelled. -/
def normalize_to_mg_per_100g (amount : ℚ) (units : String) : Option ℚ :=
  let u := canonUnits units
  if u = "mg/100g" ∨ u = "mgper100g" then some amount
  else if u = "g/100g" ∨ u = "gper100g" then some (amount * 1000)
  else if u = "mg/g" ∨ u = "mgperg" then some (amount * 100)
  else if u = "g/kg" ∨ u = "gperkg" then some (amount * 100)
  else none

/-- The eight unit spellings accepted by `normalize_to_mg_per_100g` after
canonicalisation. -/
def supportedUnitSpellings : List String :=
  ["mg/100g", "mgper100g", "g/100g", "gper100g",
   "mg/g", "mgperg", "g/kg", "gperkg"]

/-- Characters matched by the `[\d\.]` class of the row regex. -/
def isNumDotChar (c : Char) : Bool := c.isDigit || c == '.'

/-- First alternative of `(mg|g)` that matches at the head of `cs`.
The two alternatives start with different characters, so the regex engine's
preference order reduces to first-match. -/
def matchUnit2 (cs : List Char) : Option (List Char × List Char) :=
  if "mg".data.isPrefixOf cs then some ("mg".data, cs.drop 2)
  else if "g".data.isPrefixOf cs then some ("g".data, cs.drop 1)
  else none

/-- First alternative of `(100g|g|kg)` that matches at the head of `cs`.
All three alternatives start with different characters. -/
def matchUnit3 (cs : List Char) : Option (List Char) :=
  if "100g".data.isPrefixOf cs then some "100g".data
  else if "g".data.isPrefixOf cs then some "g".data
  else if "kg".data.isPrefixOf cs then some "kg".data
  else none

/-- Attempt to match `([\d\.]+)\s*(mg|g)\s*/\s*(100g|g|kg)` anchored at the
head of `cs`, returning the three groups.  Greedy matching of `[\d\.]+` and
each `\s*` needs no backtracking because the following pattern pieces cannot
start with a digit, a dot, or a space. -/
def matchNumUnitAt (cs : List Char) : Option (List Char × List Char × List Char) :=
  let g1 := cs.takeWhile isNumDotChar
  if g1.isEmpty then none
  else
    let r2 := (cs.dropWhile isNumDotChar).dropWhile pyIsSpace
    match matchUnit2 r2 with
    | none => none
    | some (g2, r3) =>
      match r3.dropWhile pyIsSpace with
      | '/' :: r5 =>
        match matchUnit3 (r5.dropWhile pyIsSpace) with
        | some g3 => some (g1, g2, g3)
        | none => none
      | _ => none

/-- Embedding of `re.search` for the row pattern: try every start position left to
right. -/
def findNumUnit : List Char → Option (List Char × List Char × List Char)
  | [] => none
  | c :: t =>
    match matchNumUnitAt (c :: t) with
    | some m => some m
    | none => findNumUnit t

/-- Python `float(s)` restricted to the strings `[\d\.]+` can produce:
defined iff `s` contains at least one digit and at most one dot.  A failed
conversion raises `ValueError` in the source; the caller models that as
`none`. -/
def parsePyFloat (cs : List Char) : Option ℚ :=
  let intPart := cs.takeWhile Char.isDigit
  match cs.dropWhile Char.isDigit with
  | [] => some (intPart.foldl (fun a c => a * 10 + (c.toNat - '0'.toNat)) 0 : ℕ)
  | '.' :: frac =>
    if frac.all Char.isDigit ∧ ¬(intPart.isEmpty ∧ frac.isEmpty) then
      some ((intPart.foldl (fun a c => a * 10 + (c.toNat - '0'.toNat)) 0 : ℕ) +
        ((frac.foldl (fun a c => a * 10 + (c.toNat - '0'.toNat)) 0 : ℕ) : ℚ) /
          (10 : ℚ) ^ frac.length)
    else none
  | _ => none

/-- One extracted fact (`results.append({...})` in
`extract_amino_tables_from_pmc_xml`). -/
structure ExtractedFact where
  amino_acid : String
  amount_mg_per_100g : ℚ
  raw_units : String
  context : String
deriving DecidableEq, Repr

/-- Inner loop of `extract_amino_tables_from_pmc_xml` over `AMINO_ALIASES`
for one table row.  `none` models the `ValueError` that `float(...)` would
raise on a malformed numeric group. -/
def processRowAux (rowText : List Char) (caption : String) :
    List (String × List String) → Option (List ExtractedFact)
  | [] => some []
  | (canonical, aliases) :: rest =>
    if aliases.any (fun a => containsSub rowText a.data) then
      match findNumUnit rowText with
      | none => processRowAux rowText caption rest
      | some (g1, g2, g3) =>
        match parsePyFloat g1 with
        | none => none
        | some amount =>
          let unit := String.mk g2 ++ "/" ++ String.mk g3
          match normalize_to_mg_per_100g amount unit with
          | none => processRowAux rowText caption rest
          | some normalized =>
            match processRowAux rowText caption rest with
            | none => none
            | some facts =>
              some ({ amino_acid := canonical,
                      amount_mg_per_100g := normalized,
                      raw_units := unit,
                      context := String.mk (caption.data.take 300) } :: facts)
    else processRowAux rowText caption rest

/-- Processing of one table row of `extract_amino_tables_from_pmc_xml`
(lines 114–148): the concatenated cell text is lowercased, each amino-acid
alias set is tested, and a numeric value plus unit is extracted and
normalised.  XML parsing and the `len(cells) < 2` guard happen in the
caller and are outside this model. -/
def process_table_row (cellsText caption : String) : Option (List ExtractedFact) :=
  processRowAux (toLowerL cellsText.data) caption AMINO_ALIASES

/-! ### `app/failed_searches.py` -/

/-- Embedding of `normalize_query`: strip, lowercase, collapse internal whitespace. -/
def normalize_query (q : String) : String :=
  String.mk (collapseWs (toLowerL (pyStrip q.data)))

/-- Modelled from the spec: the `FailedSearch` table class is imported from
`app.models` but its definition is not part of the provided sources.  Spec
§3 ("FailedQuery") lists raw text, normalized text, occurrence count,
first/last-seen timestamps, lifecycle status and classifier outputs; only
the columns the verified claims touch are carried here, with the last-seen
timestamp abstracted to a natural number supplied by the caller (the DB's
`func.now()`). -/
structure FailedSearch where
  query : String
  normalized_query : String
  seen_count : Nat
  status : String
  last_seen_at : Nat
deriving DecidableEq, Repr

/-- The row inserted by `log_failed_search` when no row with the same
normalized text exists (`status="new"`, `seen_count=1`). -/
def freshFailedSearch (query : String) (now : Nat) : FailedSearch :=
  { query := pyStripS query
    normalized_query := normalize_query query
    seen_count := 1
    status := "new"
    last_seen_at := now }

/-- Embedding of `log_failed_search`: reject normalized queries shorter than two
characters; otherwise increment the first row with the same normalized
text (refreshing its last-seen time) or insert a fresh row. -/
def log_failed_search (store : List FailedSearch) (query : String) (now : Nat) :
    Option FailedSearch × List FailedSearch :=
  let norm := normalize_query query
  if norm.length < 2 then (none, store)
  else
    let res := updateFirstOrAppend (fun r => r.normalized_query == norm)
      (fun r => { r with seen_count := r.seen_count + 1, last_seen_at := now })
      (freshFailedSearch query now) store
    (some res.1, res.2)

/-! ### `app/crud.py` -/

/-- The `sources` table row (`class Source` in `app/models.py`). -/
structure Source where
  source_type : String
  source_name : String
  source_url : String
  citation_text : String
  version : Option String
deriving DecidableEq, Repr

/-- The row inserted by `get_or_create_publication_source` when no
publication row with the given URL exists (column-width truncations
included). -/
def freshPublicationSource (source_name source_url citation_text : String)
    (version : Option String) : Source :=
  { source_type := "publication"
    source_name := takeStr 200 (if source_name = "" then "Unknown publication" else source_name)
    source_url := takeStr 500 source_url
    citation_text := takeStr 500 citation_text
    version := version }

/-- The backfill step applied to an existing publication source row: fill
each of name/citation/version only when the argument is truthy and the
stored field is falsy. -/
def backfillSource (source_name citation_text : String) (version : Option String)
    (r : Source) : Source :=
  let r₁ := if source_name ≠ "" ∧ r.source_name = "" then { r with source_name := source_name } else r
  let r₂ := if citation_text ≠ "" ∧ r₁.citation_text = "" then { r₁ with citation_text := citation_text } else r₁
  if pyTruthyO version = true ∧ pyTruthyO r₂.version = false then { r₂ with version := version } else r₂

/-- Embedding of `get_or_create_publication_source`: look up by
`(source_type="publication", source_url)`; backfill missing fields of an
existing row, or insert a fresh one. -/
def get_or_create_publication_source (store : List Source)
    (source_name source_url citation_text : String) (version : Option String) :
    Source × List Source :=
  updateFirstOrAppend
    (fun r => r.source_type == "publication" && r.source_url == source_url)
    (backfillSource source_name citation_text version)
    (freshPublicationSource source_name source_url citation_text version)
    store

/-- The `food_amino_acids` table row (`class FoodAminoAcid` in
`app/models.py`); the surrogate `id` column plays no role in the verified
behaviour and is omitted. -/
structure FoodAminoAcid where
  food_id : Nat
  amino_acid : String
  amount_mg_per_100g : ℚ
  units : String
  confidence : ℚ
  source_id : Nat
deriving DecidableEq, Repr

/-- Embedding of `amino_acid.strip().lower()` — the lookup key normalisation of
`upsert_food_amino_acid`. -/
def canonAminoAcid (s : String) : String :=
  String.mk (toLowerL (pyStrip s.data))

/-- Embedding of `upsert_food_amino_acid`: unique key `(food_id, amino_acid)`; on
conflict amount/units/source are overwritten and confidence keeps the
higher value (`existing.confidence or 0.0` is the identity on the
non-nullable float column and is folded into `max`). -/
def upsert_food_amino_acid (store : List FoodAminoAcid)
    (food_id source_id : Nat) (amino_acid : String)
    (amount_mg_per_100g confidence : ℚ) (units : String) :
    FoodAminoAcid × List FoodAminoAcid :=
  let aa_key := canonAminoAcid amino_acid
  updateFirstOrAppend
    (fun r => r.food_id == food_id && r.amino_acid == aa_key)
    (fun r => { r with amount_mg_per_100g := amount_mg_per_100g,
                       units := units,
                       source_id := source_id,
                       confidence := max r.confidence confidence })
    { food_id := food_id
      amino_acid := aa_key
      amount_mg_per_100g := amount_mg_per_100g
      units := units
      confidence := confidence
      source_id := source_id }
    store

/-! ### `app/papers/ranker.py` -/

/-- Embedding of `PaperHit` (`app/papers/types.py`): the normalized hit shape shared by
both providers. -/
structure PaperHit where
  provider : String
  title : String
  doi : Option String
  url : String
  published_year : Option Int
  authors : Option String
  abstract : Option String
  raw_score : Option ℚ
deriving DecidableEq, Repr

/-- Embedding of `MEASUREMENT_KEYWORDS`, in source order. -/
def MEASUREMENT_KEYWORDS : List String :=
  ["amino acid", "amino acids", "amino-acid", "composition", "profile",
   "content", "quantification", "determination", "analysis", "hplc",
   "uhplc", "chromatography", "mass spectrometry", "lc-ms", "gc-ms",
   "mg/100g", "g/100g", "protein quality", "digestibility", "iaao"]

/-- Embedding of `LOW_VALUE_KEYWORDS`, in source order. -/
def LOW_VALUE_KEYWORDS : List String :=
  ["review", "systematic review", "meta-analysis", "scoping review",
   "editorial", "commentary", "case report", "protocol", "guideline"]

/-- Embedding of `OFF_DOMAIN_KEYWORDS`, in source order. -/
def OFF_DOMAIN_KEYWORDS : List String :=
  ["novel", "poetry", "literature", "philosophy", "politics",
   "chickpeas, and"]

/-- Embedding of `_normalize_text`: lowercase and collapse whitespace; `None` becomes the
empty string (`" ".join(s.lower().strip().split())`). -/
def normalizeText (s : Option String) : List Char :=
  match s with
  | none => []
  | some s => collapseWs (pyStrip (toLowerL s.data))

/-- Characters of the `[a-z0-9]+` token class of `_WORD_RE`. -/
def isTokChar (c : Char) : Bool :=
  ('a' ≤ c ∧ c ≤ 'z') ∨ ('0' ≤ c ∧ c ≤ '9')

/-- Worker for `_tokens`: split into maximal runs of token characters;
`cur` holds the current run reversed. -/
def tokenRunsAux : List Char → List Char → List (List Char)
  | cur, [] => if cur.isEmpty then [] else [cur.reverse]
  | cur, c :: t =>
    if isTokChar c then tokenRunsAux (c :: cur) t
    else if cur.isEmpty then tokenRunsAux [] t
    else cur.reverse :: tokenRunsAux [] t

/-- Embedding of `_tokens`: `re.findall(r"[a-z0-9]+", s)`. -/
def tokensOf (s : List Char) : List (List Char) := tokenRunsAux [] s

/-- Step 1 of `score_hit`: +1.2 for every measurement keyword contained in
the combined title+abstract text. -/
def measurementBoost (combined : List Char) : ℚ :=
  MEASUREMENT_KEYWORDS.foldl
    (fun acc kw => if containsSub combined kw.data then acc + 6/5 else acc) 0

/-- The extra +2.5 when a literal unit token appears in the combined text. -/
def unitsBoost (combined : List Char) : ℚ :=
  if containsSub combined "mg/100g".data || containsSub combined "g/100g".data
  then 5/2 else 0

/-- Step 2 of `score_hit`: −1.8 for every low-value keyword contained in the
title or the abstract. -/
def lowValuePenalty (title abstract : List Char) : ℚ :=
  LOW_VALUE_KEYWORDS.foldl
    (fun acc kw =>
      if containsSub title kw.data || containsSub abstract kw.data
      then acc - 9/5 else acc) 0

/-- Step 3 of `score_hit`: −3.0 for every off-domain keyword contained in
the title or the abstract. -/
def offDomainPenalty (title abstract : List Char) : ℚ :=
  OFF_DOMAIN_KEYWORDS.foldl
    (fun acc kw =>
      if containsSub title kw.data || containsSub abstract kw.data
      then acc - 3 else acc) 0

/-- Number of distinct normalized query tokens appearing among the
title+abstract tokens (`len(q_tokens.intersection(text_tokens))`). -/
def tokenOverlap (q combined : List Char) : Nat :=
  (((tokensOf q).dedup).filter (fun t => (tokensOf combined).contains t)).length

/-- Step 4 of `score_hit`: +0.9 × min(3, overlap), only when the query has
tokens at all (`if q_tokens:`). -/
def overlapBoost (q combined : List Char) : ℚ :=
  if (tokensOf q).isEmpty then 0
  else (min 3 (tokenOverlap q combined) : ℕ) * (9/10)

/-- Step 5 of `score_hit`: the provider prior. -/
def providerPrior (provider : String) : ℚ :=
  if provider = "pubmed" then 1
  else if provider = "crossref" then 1/5
  else 0

/-- The combined text `f"{title} {abstract}".strip()` over the normalized
title and abstract. -/
def combinedText (hit : PaperHit) : List Char :=
  pyStrip (normalizeText (some hit.title) ++ ' ' :: normalizeText hit.abstract)

/-- The raw additive score accumulated by `score_hit` before the logistic
squash (steps 1–5; the float additions of the source are modelled as exact
rational arithmetic). -/
def scoreHitRaw (hit : PaperHit) (query : String) : ℚ :=
  let title := normalizeText (some hit.title)
  let abstract := normalizeText hit.abstract
  let combined := combinedText hit
  measurementBoost combined + unitsBoost combined +
    lowValuePenalty title abstract + offDomainPenalty title abstract +
    overlapBoost (normalizeText (some query)) combined +
    providerPrior hit.provider

/-- Embedding of `ScoredHit`: the source stores the squashed score (a float) and a list
of reason strings.  The raw additive score determines the squashed score
exactly (see `ScoredHit.score`), so the raw score is stored instead; the
reason strings are pure explanation output that no verified property
touches and are not modelled. -/
structure ScoredHit where
  hit : PaperHit
  raw : ℚ
deriving DecidableEq, Repr

/-- Step 6 of `score_hit`: the logistic squash
`1.0 / (1.0 + pow(2.718281828, -raw / 2.5))`, over `ℝ`. -/
noncomputable def squash (raw : ℚ) : ℝ :=
  1 / (1 + (2.718281828 : ℝ) ^ (-(raw : ℝ) / 2.5))

/-- The final clamp of `score_hit` ("just in case"). -/
noncomputable def clamp01 (x : ℝ) : ℝ :=
  if x < 0 then 0 else if x > 1 then 1 else x

/-- The score field of the source's `ScoredHit`, derived from the stored
raw score. -/
noncomputable def ScoredHit.score (s : ScoredHit) : ℝ :=
  clamp01 (squash s.raw)

/-- Embedding of `score_hit`: package the hit with its raw additive score. -/
def score_hit (hit : PaperHit) (query : String) : ScoredHit :=
  { hit := hit, raw := scoreHitRaw hit query }

/-- The comparison used to sort scored hits.  The source sorts by the
squashed score, descending; `squash` is strictly increasing and `clamp01`
is the identity on its range (`squash_le_squash_iff`, `clamp01_squash`
below), so the descending raw-score order is the same order. -/
def rankerGe (a b : ScoredHit) : Prop := b.raw ≤ a.raw

instance : DecidableRel rankerGe :=
  fun a b => inferInstanceAs (Decidable (b.raw ≤ a.raw))

instance : IsTotal ScoredHit rankerGe :=
  ⟨fun a b => le_total b.raw a.raw⟩

instance : IsTrans ScoredHit rankerGe :=
  ⟨fun _ _ _ h₁ h₂ => le_trans h₂ h₁⟩

/-- Embedding of `rank_hits`: score every hit, sort by score descending (Python's
`list.sort` is stable; `List.insertionSort` with the non-strict descending
comparison preserves the order of equal keys the same way), and keep the
first `top_n`. -/
def rank_hits (hits : List PaperHit) (query : String) (top_n : Nat) :
    List ScoredHit :=
  ((hits.map (fun h => score_hit h query)).insertionSort rankerGe).take top_n

/-! ### `app/papers/extractor.py` -/

/-- Python's `\w` word-character class (ASCII part), used for the `\b`
anchors of the identifier regexes. -/
def isWordChar (c : Char) : Bool := c.isAlpha || c.isDigit || c == '_'

/-- Characters of the trailing class `[-._;()/:A-Z0-9]` of `_DOI_RE`
(case-insensitive, so all letters). -/
def isDoiClassChar (c : Char) : Bool :=
  c.isAlpha || c.isDigit || "-._;()/:".data.contains c

/-- Backtracking of the trailing `\b` of `_DOI_RE` over the reversed
greedy class run: drop characters from the end until a word boundary holds
against the following character (`nextIsWord`).  `none` means no cut of the
run satisfies the boundary and the match attempt fails. -/
def trimToWordBoundary : List Char → Bool → Option (List Char)
  | [], _ => none
  | c :: rest, nextIsWord =>
    if (isWordChar c ≠ nextIsWord) then some (c :: rest)
    else trimToWordBoundary rest (isWordChar c)

/-- Match `_DOI_RE` (`\b10\.\d{4,9}/[-._;()/:A-Z0-9]+\b`, ignore-case)
anchored at the head of `cs`; `boundaryOk` says whether a word boundary
holds before the head.  `\d{4,9}` needs no backtracking because the
following `/` is not a digit, so the greedy digit run must itself have
length 4–9. -/
def matchDoiAt (boundaryOk : Bool) (cs : List Char) : Option (List Char) :=
  match cs with
  | '1' :: '0' :: '.' :: rest =>
    if boundaryOk then
      let ds := rest.takeWhile Char.isDigit
      if 4 ≤ ds.length ∧ ds.length ≤ 9 then
        match rest.drop ds.length with
        | '/' :: rest2 =>
          let run := rest2.takeWhile isDoiClassChar
          let nextIsWord :=
            match rest2.drop run.length with
            | [] => false
            | c :: _ => isWordChar c
          match trimToWordBoundary run.reverse nextIsWord with
          | some revRun => some ('1' :: '0' :: '.' :: (ds ++ '/' :: revRun.reverse))
          | none => none
        | _ => none
      else none
    else none
  | _ => none

/-- Leftmost-match scan for `_DOI_RE`, tracking the word-character status of
the previous character for the leading `\b`. -/
def findDoiAux : Bool → List Char → Option (List Char)
  | _, [] => none
  | bOk, c :: t =>
    match matchDoiAt bOk (c :: t) with
    | some m => some m
    | none => findDoiAux (!isWordChar c) t

/-- Embedding of `_extract_doi`: first DOI-shaped substring, stripped and lowercased. -/
def extract_doi (text : String) : Option String :=
  (findDoiAux true text.data).map (fun m => String.mk (toLowerL (pyStrip m)))

/-- Match `_PMCID_RE` (`\bPMC\d+\b`, ignore-case) anchored at the head. -/
def matchPmcidAt (boundaryOk : Bool) (cs : List Char) : Option (List Char) :=
  match cs with
  | a :: b :: c :: rest =>
    if boundaryOk ∧ Char.toLower a = 'p' ∧ Char.toLower b = 'm' ∧ Char.toLower c = 'c' then
      let ds := rest.takeWhile Char.isDigit
      if ds.isEmpty then none
      else
        let okEnd :=
          match rest.drop ds.length with
          | [] => true
          | x :: _ => !isWordChar x
        if okEnd then some (a :: b :: c :: ds) else none
    else none
  | _ => none

/-- Leftmost-match scan for `_PMCID_RE`. -/
def findPmcidAux : Bool → List Char → Option (List Char)
  | _, [] => none
  | bOk, c :: t =>
    match matchPmcidAt bOk (c :: t) with
    | some m => some m
    | none => findPmcidAux (!isWordChar c) t

/-- Embedding of `_extract_pmcid`: first PMC identifier, normalised to upper case. -/
def extract_pmcid (text : String) : Option String :=
  (findPmcidAux true text.data).map (fun m => String.mk (toUpperL m))

/-- Case-insensitive literal prefix match; returns the remainder. -/
def matchPrefixCI (p : String) (cs : List Char) : Option (List Char) :=
  if toLowerL (cs.take p.data.length) = p.data then some (cs.drop p.data.length)
  else none

/-- Match `_PMID_RE` (`(?:pubmed\.ncbi\.nlm\.nih\.gov/|/pubmed/)(\d+)`,
ignore-case) anchored at the head; the two alternatives start with
different characters.  Returns group 1. -/
def matchPmidAt (cs : List Char) : Option (List Char) :=
  let digitsAfter : List Char → Option (List Char) := fun rest =>
    let ds := rest.takeWhile Char.isDigit
    if ds.isEmpty then none else some ds
  match matchPrefixCI "pubmed.ncbi.nlm.nih.gov/" cs with
  | some rest => digitsAfter rest
  | none =>
    match matchPrefixCI "/pubmed/" cs with
    | some rest => digitsAfter rest
    | none => none

/-- Leftmost-match scan for `_PMID_RE`. -/
def findPmidAux : List Char → Option (List Char)
  | [] => none
  | c :: t =>
    match matchPmidAt (c :: t) with
    | some m => some m
    | none => findPmidAux t

/-- Embedding of `_extract_pmid_from_url`. -/
def extract_pmid_from_url (url : String) : Option String :=
  (findPmidAux url.data).map String.mk

/-- Embedding of `_stable_key`: the source joins the non-empty parts with `"||"` and
hashes the result with SHA-256, keeping 24 hex characters.  The hash step
is a deterministic injective-by-intent post-processing of the joined
string; only determinism of the key matters to the cache behaviour, so the
key is modelled as the joined string itself. -/
def stableKey (parts : List String) : String :=
  String.intercalate "||" (parts.filter (fun p => !(p == "")))

/-- Embedding of `FullTextDoc` (without the two NCBI config fields, which are process
constants). -/
structure FullTextDoc where
  title : String
  source_url : String
  doi : Option String
  pmid : Option String
  pmcid : Option String
  pmc_xml : Option String
  provider : String
  warnings : List String
deriving DecidableEq, Repr

/-- An HTTP response as seen after `_http_get` succeeded (status code and
body). -/
structure HttpResp where
  status : Nat
  text : String
deriving DecidableEq, Repr

/-- One record of the ID-converter response. -/
structure IdconvRecord where
  doi : Option String
  pmid : Option String
  pmcid : Option String
deriving DecidableEq, Repr

/-- The parsed ID-converter response: HTTP status and record list. -/
structure IdconvReply where
  status : Nat
  records : List IdconvRecord
deriving DecidableEq, Repr

/-- The network oracle: outcomes of the two external endpoints.  An
`Except.error` models an exception escaping `_http_get` (retries
exhausted or a network fault). -/
structure Network where
  idconv : List String → Except String IdconvReply
  efetch : String → Except String HttpResp

/-- The result dictionary of `resolve_ids_via_idconv`. -/
structure ResolvedIds where
  doi : Option String
  pmid : Option String
  pmcid : Option String
  warning : Option String
deriving DecidableEq, Repr

/-- Embedding of `resolve_ids_via_idconv`: no network call when a PMCID is already known
or no usable ids exist; otherwise query the converter and merge the first
record, lowercasing the DOI and uppercasing the PMCID. -/
def resolve_ids_via_idconv (net : Network) (doi pmid pmcid : Option String) :
    Except String ResolvedIds :=
  if pyTruthyO pmcid then .ok ⟨doi, pmid, pmcid, none⟩
  else
    let ids :=
      (match doi with | some d => if d = "" then [] else [d] | none => []) ++
      (match pmid with | some p => if p = "" then [] else [p] | none => [])
    if ids.isEmpty then .ok ⟨doi, pmid, pmcid, none⟩
    else
      match net.idconv ids with
      | .error e => .error e
      | .ok reply =>
        if reply.status ≠ 200 then
          .ok ⟨doi, pmid, pmcid, some ("idconv http " ++ toString reply.status)⟩
        else
          match reply.records with
          | [] => .ok ⟨doi, pmid, pmcid, none⟩
          | record0 :: _ =>
            let out_doi := pyOr record0.doi doi
            let out_pmid :=
              match record0.pmid with
              | some p => if p = "" then pmid else some p
              | none => pmid
            let out_pmcid :=
              match pyOr record0.pmcid pmcid with
              | some s => if s = "" then some s else some (upperS s)
              | none => none
            .ok ⟨(match out_doi with
                  | some s => if s = "" then none else some (lowerS s)
                  | none => none),
                 out_pmid, out_pmcid, none⟩

/-- Embedding of `fetch_pmc_xml`: efetch by PMCID; a non-200 status, an error-flagged
body or a suspiciously short body count as "not available" (`none`). -/
def fetch_pmc_xml (net : Network) (pmcid : String) : Except String (Option String) :=
  let p := String.mk (pyStrip (toUpperL pmcid.data))
  match net.efetch p with
  | .error e => .error e
  | .ok resp =>
    if resp.status ≠ 200 then .ok none
    else if containsSub (toLowerL resp.text.data) "<error".data then .ok none
    else if (pyStrip resp.text.data).length < 200 then .ok none
    else .ok (some resp.text)

/-- The metadata JSON file of one cache entry. -/
structure CacheMeta where
  title : String
  source_url : String
  doi : Option String
  pmid : Option String
  pmcid : Option String
  provider : String
  warnings : List String
deriving DecidableEq, Repr

/-- The disk cache: the `<key>.json` files and the `<key>.xml` files, as
association lists (later writes shadow earlier ones, matching file
overwrite). -/
structure Cache where
  meta : List (String × CacheMeta)
  xml : List (String × String)
deriving DecidableEq, Repr

/-- Embedding of `_read_cache`: absent metadata is a miss; the XML file is attached when
present.  (A corrupted entry is also treated as a miss in the source; only
well-formed entries are modelled.) -/
def read_cache (cache : Cache) (key : String) : Option FullTextDoc :=
  match cache.meta.lookup key with
  | none => none
  | some m =>
    some { title := m.title, source_url := m.source_url, doi := m.doi,
           pmid := m.pmid, pmcid := m.pmcid,
           pmc_xml := cache.xml.lookup key,
           provider := m.provider, warnings := m.warnings }

/-- Embedding of `_write_cache`: always write the metadata file; write the XML file only
when `doc.pmc_xml` is truthy (an existing XML file is left in place
otherwise, as on disk). -/
def write_cache (cache : Cache) (key : String) (doc : FullTextDoc) : Cache :=
  { meta := (key, { title := doc.title, source_url := doc.source_url,
                    doi := doc.doi, pmid := doc.pmid, pmcid := doc.pmcid,
                    provider := doc.provider, warnings := doc.warnings }) :: cache.meta,
    xml := if pyTruthyO doc.pmc_xml then (key, doc.pmc_xml.getD "") :: cache.xml
           else cache.xml }

/-- Step 1 of the miss path of `fetch_fulltext_offline_first`: merge the
resolver outcome into the document, catching exceptions as a warning. -/
def applyIdconv (res : Except String ResolvedIds) (doc : FullTextDoc) : FullTextDoc :=
  match res with
  | .ok r =>
    let d := { doc with doi := pyOr r.doi doc.doi,
                        pmid := pyOr r.pmid doc.pmid,
                        pmcid := pyOr r.pmcid doc.pmcid }
    match r.warning with
    | some w => if w = "" then d else { d with warnings := d.warnings ++ [w] }
    | none => d
  | .error e => { doc with warnings := doc.warnings ++ ["idconv failed: " ++ e] }

/-- Step 2 of the miss path: fetch PMC XML when a PMCID is known, recording
warnings instead of raising. -/
def applyPmcStep (net : Network) (doc : FullTextDoc) : FullTextDoc :=
  match doc.pmcid with
  | some p =>
    if p = "" then
      { doc with warnings := doc.warnings ++ ["no PMCID (cannot fetch PMC full text)"] }
    else
      match fetch_pmc_xml net p with
      | .ok (some x) =>
        if x = "" then
          { doc with warnings := doc.warnings ++ ["pmc_xml not available (efetch returned empty or error)"] }
        else { doc with pmc_xml := some x }
      | .ok none =>
        { doc with warnings := doc.warnings ++ ["pmc_xml not available (efetch returned empty or error)"] }
      | .error e =>
        { doc with warnings := doc.warnings ++ ["pmc_xml fetch failed: " ++ e] }
  | none =>
    { doc with warnings := doc.warnings ++ ["no PMCID (cannot fetch PMC full text)"] }

/-- The document computed on a cache miss (steps 1–2 applied to the freshly
constructed `FullTextDoc`). -/
def fetchCompute (net : Network) (title url : String)
    (doi pmid pmcid : Option String) : FullTextDoc :=
  let doc0 : FullTextDoc :=
    { title := title, source_url := url, doi := doi, pmid := pmid,
      pmcid := pmcid, pmc_xml := none, provider := "idconv+pmc", warnings := [] }
  applyPmcStep net (applyIdconv (resolve_ids_via_idconv net doc0.doi doc0.pmid doc0.pmcid) doc0)

/-- The cache key computed by `fetch_fulltext_offline_first` from its
arguments (identifier derivation included). -/
def fetchKey (title url : String) (doi0 : Option String) : String :=
  let doi := pyOr (pyOr doi0 (extract_doi url)) (extract_doi title)
  let pmcid := pyOr (extract_pmcid url) (extract_pmcid title)
  let pmid := extract_pmid_from_url url
  stableKey [takeStr 120 title, takeStr 200 url, doi.getD "", pmcid.getD "", pmid.getD ""]

/-- Embedding of `fetch_fulltext_offline_first`: derive identifiers, return the cache
entry when one exists, otherwise compute the document and write it through
the cache before returning. -/
def fetch_fulltext_offline_first (net : Network) (cache : Cache)
    (title url : String) (doi0 : Option String) : FullTextDoc × Cache :=
  let doi := pyOr (pyOr doi0 (extract_doi url)) (extract_doi title)
  let pmcid := pyOr (extract_pmcid url) (extract_pmcid title)
  let pmid := extract_pmid_from_url url
  let key := fetchKey title url doi0
  match read_cache cache key with
  | some cached => (cached, cache)
  | none =>
    let doc := fetchCompute net title url doi pmid pmcid
    (doc, write_cache cache key doc)

/-! ### Batch selection of the three pipeline stages

`app/etl/process_failed_searches.py` (`run`), `app/papers/pipeline.py`
(`run_once`) and `app/papers/extract_pipeline.py` (`run`) each begin with a
`SELECT ... WHERE status = s ORDER BY ... LIMIT limit`.  The `ORDER BY` is
modelled as a stable insertion sort under the corresponding (total,
transitive) comparison. -/

/-- Embedding of `ORDER BY seen_count DESC, last_seen_at DESC` (triage stage). -/
def triageGe (a b : FailedSearch) : Prop :=
  b.seen_count < a.seen_count ∨
    (a.seen_count = b.seen_count ∧ b.last_seen_at ≤ a.last_seen_at)

instance : DecidableRel triageGe :=
  fun a b => inferInstanceAs (Decidable (_ ∨ _))

instance : IsTotal FailedSearch triageGe :=
  ⟨fun a b => by unfold triageGe; omega⟩

instance : IsTrans FailedSearch triageGe :=
  ⟨fun a b c h₁ h₂ => by unfold triageGe at *; omega⟩

/-- Embedding of `ORDER BY last_seen_at DESC` (candidate-discovery stage). -/
def recentGe (a b : FailedSearch) : Prop := b.last_seen_at ≤ a.last_seen_at

instance : DecidableRel recentGe :=
  fun a b => inferInstanceAs (Decidable (_ ≤ _))

instance : IsTotal FailedSearch recentGe := ⟨fun a b => le_total _ _⟩

instance : IsTrans FailedSearch recentGe :=
  ⟨fun _ _ _ h₁ h₂ => le_trans h₂ h₁⟩

/-- Embedding of `ORDER BY last_seen_at ASC` (extraction stage). -/
def oldestLe (a b : FailedSearch) : Prop := a.last_seen_at ≤ b.last_seen_at

instance : DecidableRel oldestLe :=
  fun a b => inferInstanceAs (Decidable (_ ≤ _))

instance : IsTotal FailedSearch oldestLe := ⟨fun a b => le_total _ _⟩

instance : IsTrans FailedSearch oldestLe :=
  ⟨fun _ _ _ h₁ h₂ => le_trans h₁ h₂⟩

/-- Triage batch (`process_failed_searches.run`, lines 47–55):
`status="new"`, ordered by `seen_count` descending then `last_seen_at`
descending, limited. -/
def select_new_batch (rows : List FailedSearch) (limit : Nat) : List FailedSearch :=
  ((rows.filter (fun r => r.status == "new")).insertionSort triageGe).take limit

/-- Candidate-discovery batch (`pipeline.run_once`, lines 155–161):
`status="queued"`, ordered by `last_seen_at` descending only, limited. -/
def select_queued_batch (rows : List FailedSearch) (limit : Nat) : List FailedSearch :=
  ((rows.filter (fun r => r.status == "queued")).insertionSort recentGe).take limit

/-- Extraction batch (`extract_pipeline.run`, lines 170–176):
`status="candidates_done"`, ordered by `last_seen_at` ascending, limited. -/
def select_candidates_done_batch (rows : List FailedSearch) (limit : Nat) :
    List FailedSearch :=
  ((rows.filter (fun r => r.status == "candidates_done")).insertionSort oldestLe).take limit

/-! ### Properties of the logistic squash -/

theorem squashBase_one_lt : (1 : ℝ) < 2.718281828 := by norm_num

theorem squash_pos (x : ℚ) : 0 < squash x := by
  unfold squash
  have h : (0 : ℝ) < (2.718281828 : ℝ) ^ (-(x : ℝ) / 2.5) :=
    Real.rpow_pos_of_pos (by norm_num) _
  positivity

theorem squash_lt_one (x : ℚ) : squash x < 1 := by
  unfold squash
  have h : (0 : ℝ) < (2.718281828 : ℝ) ^ (-(x : ℝ) / 2.5) :=
    Real.rpow_pos_of_pos (by norm_num) _
  rw [div_lt_one (by linarith)]
  linarith

theorem squash_strictMono {x y : ℚ} (h : x < y) : squash x < squash y := by
  unfold squash
  have hxy : (x : ℝ) < (y : ℝ) := by exact_mod_cast h
  have hexp : -(y : ℝ) / 2.5 < -(x : ℝ) / 2.5 :=
    (div_lt_div_iff_of_pos_right (by norm_num : (0 : ℝ) < 2.5)).mpr (by linarith)
  have hpow : (2.718281828 : ℝ) ^ (-(y : ℝ) / 2.5) < (2.718281828 : ℝ) ^ (-(x : ℝ) / 2.5) :=
    (Real.rpow_lt_rpow_left_iff squashBase_one_lt).mpr hexp
  have hy : (0 : ℝ) < (2.718281828 : ℝ) ^ (-(y : ℝ) / 2.5) :=
    Real.rpow_pos_of_pos (by norm_num) _
  exact one_div_lt_one_div_of_lt (by linarith) (by linarith)

theorem squash_le_squash_iff {x y : ℚ} : squash x ≤ squash y ↔ x ≤ y := by
  constructor
  · intro h
    by_contra hlt
    exact absurd h (not_le.mpr (squash_strictMono (not_le.mp hlt)))
  · intro h
    rcases lt_or_eq_of_le h with h' | h'
    · exact le_of_lt (squash_strictMono h')
    · subst h'; exact le_refl _

theorem clamp01_squash (x : ℚ) : clamp01 (squash x) = squash x := by
  unfold clamp01
  rw [if_neg (not_lt.mpr (le_of_lt (squash_pos x))),
    if_neg (not_lt.mpr (le_of_lt (squash_lt_one x)))]

theorem scoredHit_score_eq (s : ScoredHit) : ScoredHit.score s = squash s.raw := by
  unfold ScoredHit.score
  exact clamp01_squash s.raw

theorem scoredHit_score_le_iff (a b : ScoredHit) :
    ScoredHit.score a ≤ ScoredHit.score b ↔ a.raw ≤ b.raw := by
  rw [scoredHit_score_eq, scoredHit_score_eq]
  exact squash_le_squash_iff

/-! ### Closed form of the keyword folds -/

theorem foldl_add_indicator (w : ℚ) (p : String → Bool) :
    ∀ (l : List String) (init : ℚ),
      l.foldl (fun acc kw => if p kw then acc + w else acc) init
        = init + w * (l.countP p : ℕ)
  | [], init => by simp
  | kw :: rest, init => by
    by_cases h : p kw
    · rw [List.foldl_cons, if_pos h, foldl_add_indicator w p rest (init + w),
        List.countP_cons_of_pos p rest h]
      push_cast
      ring
    · rw [List.foldl_cons, if_neg h, foldl_add_indicator w p rest init,
        List.countP_cons_of_neg p rest h]

theorem foldl_sub_indicator (w : ℚ) (p : String → Bool) :
    ∀ (l : List String) (init : ℚ),
      l.foldl (fun acc kw => if p kw then acc - w else acc) init
        = init - w * (l.countP p : ℕ)
  | [], init => by simp
  | kw :: rest, init => by
    by_cases h : p kw
    · rw [List.foldl_cons, if_pos h, foldl_sub_indicator w p rest (init - w),
        List.countP_cons_of_pos p rest h]
      push_cast
      ring
    · rw [List.foldl_cons, if_neg h, foldl_sub_indicator w p rest init,
        List.countP_cons_of_neg p rest h]

/-! ### Sorting helper lemmas -/

theorem pairwise_take {α : Type _} {R : α → α → Prop} (n : Nat) (l : List α)
    (h : l.Pairwise R) : (l.take n).Pairwise R :=
  h.sublist (List.take_sublist n l)

/-! ### Stability of the descending insertion sort

`List.orderedInsert` under `rankerGe` walks past exactly the elements with a
strictly larger raw score, so for every raw value `v` the subsequence of
elements with that raw score is untouched — Python's stable `list.sort`. -/

theorem filter_orderedInsert_raw (a : ScoredHit) (v : ℚ) :
    ∀ l : List ScoredHit,
      (List.orderedInsert rankerGe a l).filter (fun s => s.raw == v)
        = if a.raw = v
          then a :: l.filter (fun s => s.raw == v)
          else l.filter (fun s => s.raw == v)
  | [] => by
    by_cases h : a.raw = v <;>
      simp [List.orderedInsert, List.filter_cons, beq_iff_eq, h]
  | b :: l => by
    by_cases hr : rankerGe a b
    · rw [List.orderedInsert, if_pos hr]
      by_cases h : a.raw = v <;> simp [List.filter_cons, beq_iff_eq, h]
    · rw [List.orderedInsert, if_neg hr]
      have hlt : a.raw < b.raw := lt_of_not_le hr
      have ih := filter_orderedInsert_raw a v l
      by_cases h : a.raw = v
      · have hb : ¬(b.raw = v) := by
          intro hbv
          rw [h] at hlt
          rw [hbv] at hlt
          exact lt_irrefl v hlt
        simp [List.filter_cons, beq_iff_eq, h, hb, ih]
      · by_cases hb : b.raw = v <;> simp [List.filter_cons, beq_iff_eq, h, hb, ih]

theorem filter_insertionSort_raw (v : ℚ) :
    ∀ l : List ScoredHit,
      (l.insertionSort rankerGe).filter (fun s => s.raw == v)
        = l.filter (fun s => s.raw == v)
  | [] => rfl
  | a :: l => by
    rw [List.insertionSort, filter_orderedInsert_raw a v]
    have ih := filter_insertionSort_raw v l
    by_cases h : a.raw = v <;> simp [List.filter_cons, beq_iff_eq, h, ih]

/-! ### Claim theorems -/

/-- C4: unit normalisation to mg/100g applies the fixed conversion table
mg/100g ×1, g/100g ×1000, mg/g ×100, g/kg ×100; in particular
`normalize(2.4, "g/100g") = 2400`, `normalize(24, "mg/g") = 2400` and
`normalize(5, "g/kg") = 500`, in exact arithmetic. -/
theorem normalize_units_spec : ∀ amount : ℚ,
    normalize_to_mg_per_100g amount "mg/100g" = some amount
    ∧ normalize_to_mg_per_100g amount "g/100g" = some (amount * 1000)
    ∧ normalize_to_mg_per_100g amount "mg/g" = some (amount * 100)
    ∧ normalize_to_mg_per_100g amount "g/kg" = some (amount * 100)
    ∧ normalize_to_mg_per_100g (2.4 : ℚ) "g/100g" = some 2400
    ∧ normalize_to_mg_per_100g (24 : ℚ) "mg/g" = some 2400
    ∧ normalize_to_mg_per_100g (5 : ℚ) "g/kg" = some 500 := by
  intro amount
  refine ⟨rfl, rfl, rfl, rfl, ?_, ?_, ?_⟩
  · show some ((2.4 : ℚ) * 1000) = some 2400
    norm_num
  · show some ((24 : ℚ) * 100) = some 2400
    norm_num
  · show some ((5 : ℚ) * 100) = some 500
    norm_num

/-- C10: `normalize_to_mg_per_100g` returns `none` for every unit string
outside the eight supported spellings; in particular the row regex accepts
the unit combination `mg/kg` (groups `("5", "mg", "kg")` on the row
`lysine 5 mg/kg`), and such a row contributes no extracted fact — it is
silently skipped. -/
theorem normalize_units_unsupported_spec : ∀ (amount : ℚ) (units : String),
    (canonUnits units ∉ supportedUnitSpellings →
      normalize_to_mg_per_100g amount units = none)
    ∧ findNumUnit (toLowerL "Lysine 5 mg/kg".data)
        = some ("5".data, "mg".data, "kg".data)
    ∧ process_table_row "Lysine 5 mg/kg" "Amino acid composition of chickpea"
        = some [] := by
  intro amount units
  refine ⟨?_, by decide, by decide⟩
  intro h
  unfold normalize_to_mg_per_100g
  simp only []
  split_ifs with h1 h2 h3 h4
  · rcases h1 with h1 | h1 <;> exact absurd (by rw [h1]; decide) h
  · rcases h2 with h2 | h2 <;> exact absurd (by rw [h2]; decide) h
  · rcases h3 with h3 | h3 <;> exact absurd (by rw [h3]; decide) h
  · rcases h4 with h4 | h4 <;> exact absurd (by rw [h4]; decide) h
  · rfl

/-- Witness for C10 at the concrete input `amount = 5`, `units = "mg/kg"`.  -/
theorem normalize_units_unsupported_witness :
    normalize_to_mg_per_100g 5 "mg/kg" = none
    ∧ process_table_row "Lysine 5 mg/kg" "Amino acid composition of chickpea"
        = some [] :=
  ⟨(normalize_units_unsupported_spec 5 "mg/kg").1 (by decide),
   (normalize_units_unsupported_spec 5 "mg/kg").2.2⟩

/-- The match predicate of `upsert_food_amino_acid` is false exactly on rows
that miss the `(food_id, amino_acid)` key. -/
theorem faaPred_false (x : FoodAminoAcid) (fid : Nat) (key : String)
    (h : ¬(x.food_id = fid ∧ x.amino_acid = key)) :
    (x.food_id == fid && x.amino_acid == key) = false := by
  by_cases h1 : x.food_id = fid
  · by_cases h2 : x.amino_acid = key
    · exact absurd ⟨h1, h2⟩ h
    · simp [h2]
  · simp [h1]

/-- C1: on a conflict at `(food_id, lowercased-trimmed amino_acid)` the
existing row's amount and source are replaced unconditionally while
confidence becomes `max(old, new)` (hence never decreases) and the rest of
the store is untouched; with existing confidence 1.0 and new confidence 0.7
the result keeps confidence 1.0 with updated amount and source; without a
matching row a fresh row is appended. -/
theorem upsert_food_amino_acid_spec :
    ∀ (fid sid : Nat) (aa : String) (amt conf : ℚ) (u : String),
    (∀ (store₁ store₂ : List FoodAminoAcid) (r : FoodAminoAcid),
      (∀ x ∈ store₁, ¬(x.food_id = fid ∧ x.amino_acid = canonAminoAcid aa)) →
      r.food_id = fid → r.amino_acid = canonAminoAcid aa →
      upsert_food_amino_acid (store₁ ++ r :: store₂) fid sid aa amt conf u
        = ({ r with
              amount_mg_per_100g := amt, units := u, source_id := sid,
              confidence := max r.confidence conf },
           store₁ ++ { r with
              amount_mg_per_100g := amt, units := u, source_id := sid,
              confidence := max r.confidence conf } :: store₂)
      ∧ r.confidence ≤ max r.confidence conf)
    ∧ (∀ store : List FoodAminoAcid,
        (∀ x ∈ store, ¬(x.food_id = fid ∧ x.amino_acid = canonAminoAcid aa)) →
        upsert_food_amino_acid store fid sid aa amt conf u
          = (⟨fid, canonAminoAcid aa, amt, u, conf, sid⟩,
             store ++ [⟨fid, canonAminoAcid aa, amt, u, conf, sid⟩]))
    ∧ upsert_food_amino_acid [⟨1, "lysine", 300, "mg/100g", 1, 4⟩]
          1 9 "Lysine" 500 (0.7 : ℚ) "mg/100g"
        = (⟨1, "lysine", 500, "mg/100g", 1, 9⟩,
           [⟨1, "lysine", 500, "mg/100g", 1, 9⟩]) := by
  intro fid sid aa amt conf u
  refine ⟨?_, ?_, ?_⟩
  · intro store₁ store₂ r h₁ hr1 hr2
    have hfound := updateFirstOrAppend_found
      (fun x => x.food_id == fid && x.amino_acid == canonAminoAcid aa)
      (fun x => { x with
          amount_mg_per_100g := amt, units := u,
          source_id := sid, confidence := max x.confidence conf })
      ⟨fid, canonAminoAcid aa, amt, u, conf, sid⟩
      store₁ r store₂
      (fun x hx => faaPred_false x fid (canonAminoAcid aa) (h₁ x hx))
      (by simp [hr1, hr2])
    refine ⟨?_, le_max_left _ _⟩
    simpa [upsert_food_amino_acid] using hfound
  · intro store h₁
    have hmiss := updateFirstOrAppend_not_found
      (fun x => x.food_id == fid && x.amino_acid == canonAminoAcid aa)
      (fun x => { x with
          amount_mg_per_100g := amt, units := u,
          source_id := sid, confidence := max x.confidence conf })
      ⟨fid, canonAminoAcid aa, amt, u, conf, sid⟩
      store
      (fun x hx => faaPred_false x fid (canonAminoAcid aa) (h₁ x hx))
    simpa [upsert_food_amino_acid] using hmiss
  · have hp : ((⟨1, "lysine", 300, "mg/100g", 1, 4⟩ : FoodAminoAcid).food_id == 1
        && (⟨1, "lysine", 300, "mg/100g", 1, 4⟩ : FoodAminoAcid).amino_acid
             == canonAminoAcid "Lysine") = true := by decide
    have hmax : max (1 : ℚ) (0.7 : ℚ) = 1 := max_eq_left (by norm_num)
    simp [upsert_food_amino_acid, updateFirstOrAppend, hp, hmax]
    decide

/-- Witness for C1: a concrete conflict write (food 2, acid `" Valine "`,
existing confidence 0.5, new confidence 0.9). -/
theorem upsert_food_amino_acid_witness :
    upsert_food_amino_acid [⟨2, "valine", 100, "mg/100g", 0.5, 3⟩]
        2 7 " Valine " 250 (0.9 : ℚ) "mg/100g"
      = (⟨2, "valine", 250, "mg/100g", max (0.5 : ℚ) 0.9, 7⟩,
         [⟨2, "valine", 250, "mg/100g", max (0.5 : ℚ) 0.9, 7⟩])
    ∧ upsert_food_amino_acid [] 2 7 " Valine " 250 (0.9 : ℚ) "mg/100g"
      = (⟨2, canonAminoAcid " Valine ", 250, "mg/100g", 0.9, 7⟩,
         [⟨2, canonAminoAcid " Valine ", 250, "mg/100g", 0.9, 7⟩]) := by
  constructor
  · have h := ((upsert_food_amino_acid_spec 2 7 " Valine " 250 (0.9 : ℚ) "mg/100g").1
      [] [] ⟨2, "valine", 100, "mg/100g", 0.5, 3⟩
      (fun x hx => absurd hx (List.not_mem_nil x)) rfl (by decide)).1
    simpa using h
  · exact (upsert_food_amino_acid_spec 2 7 " Valine " 250 (0.9 : ℚ) "mg/100g").2.1
      [] (fun x hx => absurd hx (List.not_mem_nil x))

/-- C2: queries whose normalized text is shorter than two characters are
rejected with no store write; otherwise the first row with the same
normalized text has its count incremented and last-seen time refreshed (no
new row), a missing row is inserted with status `"new"` and count 1, and
logging the same query twice into a store with no such row leaves exactly
one row with that normalized text, carrying count 2. -/
theorem log_failed_search_spec :
    ∀ (store : List FailedSearch) (q : String) (t₁ t₂ : Nat),
    ((normalize_query q).length < 2 → log_failed_search store q t₁ = (none, store))
    ∧ (2 ≤ (normalize_query q).length →
        (∀ (l₁ l₂ : List FailedSearch) (r : FailedSearch),
          store = l₁ ++ r :: l₂ →
          (∀ x ∈ l₁, x.normalized_query ≠ normalize_query q) →
          r.normalized_query = normalize_query q →
          log_failed_search store q t₁
            = (some { r with seen_count := r.seen_count + 1, last_seen_at := t₁ },
               l₁ ++ { r with seen_count := r.seen_count + 1, last_seen_at := t₁ } :: l₂))
        ∧ ((∀ x ∈ store, x.normalized_query ≠ normalize_query q) →
            log_failed_search store q t₁
              = (some (freshFailedSearch q t₁), store ++ [freshFailedSearch q t₁])
            ∧ (log_failed_search (log_failed_search store q t₁).2 q t₂).2
                = store ++ [{ freshFailedSearch q t₁ with seen_count := 2, last_seen_at := t₂ }]
            ∧ ((log_failed_search (log_failed_search store q t₁).2 q t₂).2.countP
                  (fun x => x.normalized_query == normalize_query q)) = 1)) := by
  intro store q t₁ t₂
  have hfreshnq : (freshFailedSearch q t₁).normalized_query = normalize_query q := rfl
  constructor
  · intro h
    simp [log_failed_search, if_pos h]
  · intro hlen
    have hcond : ¬((normalize_query q).length < 2) := by omega
    constructor
    · intro l₁ l₂ r hst h₁ hr
      subst hst
      have hfound := updateFirstOrAppend_found
        (fun x => x.normalized_query == normalize_query q)
        (fun x => { x with seen_count := x.seen_count + 1, last_seen_at := t₁ })
        (freshFailedSearch q t₁) l₁ r l₂
        (fun x hx => beq_eq_false_iff_ne.mpr (h₁ x hx))
        (by simp [hr])
      simp [log_failed_search, if_neg hcond, hfound]
    · intro h₁
      have hmiss := updateFirstOrAppend_not_found
        (fun x => x.normalized_query == normalize_query q)
        (fun x => { x with seen_count := x.seen_count + 1, last_seen_at := t₁ })
        (freshFailedSearch q t₁) store
        (fun x hx => beq_eq_false_iff_ne.mpr (h₁ x hx))
      have hfirst : log_failed_search store q t₁
          = (some (freshFailedSearch q t₁), store ++ [freshFailedSearch q t₁]) := by
        simp [log_failed_search, if_neg hcond, hmiss]
      refine ⟨hfirst, ?_, ?_⟩
      · have hfound₂ := updateFirstOrAppend_found
          (fun x => x.normalized_query == normalize_query q)
          (fun x => { x with seen_count := x.seen_count + 1, last_seen_at := t₂ })
          (freshFailedSearch q t₂) store (freshFailedSearch q t₁) []
          (fun x hx => beq_eq_false_iff_ne.mpr (h₁ x hx))
          (by simp [hfreshnq])
        rw [hfirst]
        simp only [log_failed_search, if_neg hcond]
        rw [show store ++ [freshFailedSearch q t₁] = store ++ freshFailedSearch q t₁ :: [] from rfl,
          hfound₂]
        rfl
      · have hsecond : (log_failed_search (log_failed_search store q t₁).2 q t₂).2
            = store ++ [{ freshFailedSearch q t₁ with seen_count := 2, last_seen_at := t₂ }] := by
          have hfound₂ := updateFirstOrAppend_found
            (fun x => x.normalized_query == normalize_query q)
            (fun x => { x with seen_count := x.seen_count + 1, last_seen_at := t₂ })
            (freshFailedSearch q t₂) store (freshFailedSearch q t₁) []
            (fun x hx => beq_eq_false_iff_ne.mpr (h₁ x hx))
            (by simp [hfreshnq])
          rw [hfirst]
          simp only [log_failed_search, if_neg hcond]
          rw [show store ++ [freshFailedSearch q t₁] = store ++ freshFailedSearch q t₁ :: [] from rfl,
            hfound₂]
          rfl
        rw [hsecond, List.countP_append]
        have hz : store.countP (fun x => x.normalized_query == normalize_query q) = 0 :=
          List.countP_eq_zero.mpr (fun x hx => by simpa using h₁ x hx)
        simp [hz, hfreshnq]

/-- Witness for C2: a too-short query is rejected, and logging
`"  Red   Pepper "` twice into an empty store yields one row with count
2. -/
theorem log_failed_search_witness :
    log_failed_search [] "a" 1 = (none, [])
    ∧ log_failed_search [] "  Red   Pepper " 3
        = (some (freshFailedSearch "  Red   Pepper " 3),
           [freshFailedSearch "  Red   Pepper " 3])
    ∧ (log_failed_search (log_failed_search [] "  Red   Pepper " 3).2 "  Red   Pepper " 7).2
        = [{ freshFailedSearch "  Red   Pepper " 3 with seen_count := 2, last_seen_at := 7 }] := by
  refine ⟨(log_failed_search_spec [] "a" 1 7).1 (by decide), ?_⟩
  have h := ((log_failed_search_spec [] "  Red   Pepper " 3 7).2 (by decide)).2
    (fun x hx => absurd hx (List.not_mem_nil x))
  exact ⟨by simpa using h.1, by simpa using h.2.1⟩

/-- Field-level description of the backfill step: name, citation and
version are filled only when the stored field is falsy and the argument is
truthy; type and URL are never touched. -/
theorem backfillSource_fields (n c : String) (v : Option String) (r : Source) :
    (backfillSource n c v r).source_type = r.source_type
    ∧ (backfillSource n c v r).source_url = r.source_url
    ∧ (backfillSource n c v r).source_name
        = (if n ≠ "" ∧ r.source_name = "" then n else r.source_name)
    ∧ (backfillSource n c v r).citation_text
        = (if c ≠ "" ∧ r.citation_text = "" then c else r.citation_text)
    ∧ (backfillSource n c v r).version
        = (if pyTruthyO v = true ∧ pyTruthyO r.version = false then v else r.version) := by
  by_cases h₁ : n ≠ "" ∧ r.source_name = "" <;>
    by_cases h₂ : c ≠ "" ∧ r.citation_text = "" <;>
      by_cases h₃ : pyTruthyO v = true ∧ pyTruthyO r.version = false <;>
        simp [backfillSource, h₁, h₂, h₃]

/-- The match predicate of `get_or_create_publication_source` is false
exactly on rows that are not publication rows with the given URL. -/
theorem pubPred_false (x : Source) (url : String)
    (h : ¬(x.source_type = "publication" ∧ x.source_url = url)) :
    (x.source_type == "publication" && x.source_url == url) = false := by
  by_cases h1 : x.source_type = "publication"
  · by_cases h2 : x.source_url = url
    · exact absurd ⟨h1, h2⟩ h
    · simp [h2]
  · simp [h1]

/-- C8: lookup is by `(source_type = "publication", source_url)`; on a hit
only the currently-empty fields among name/citation/version are filled from
non-empty arguments, populated fields are never overwritten, the rest of
the store is untouched; on a miss a fresh row is inserted. -/
theorem get_or_create_publication_source_spec :
    ∀ (source_name source_url citation_text : String) (version : Option String),
    (∀ (store₁ store₂ : List Source) (r : Source),
      (∀ x ∈ store₁, ¬(x.source_type = "publication" ∧ x.source_url = source_url)) →
      r.source_type = "publication" → r.source_url = source_url →
      (get_or_create_publication_source (store₁ ++ r :: store₂)
          source_name source_url citation_text version).2
        = store₁ ++ (get_or_create_publication_source (store₁ ++ r :: store₂)
            source_name source_url citation_text version).1 :: store₂
      ∧ (let out := (get_or_create_publication_source (store₁ ++ r :: store₂)
            source_name source_url citation_text version).1
         out.source_type = r.source_type
         ∧ out.source_url = r.source_url
         ∧ (r.source_name ≠ "" → out.source_name = r.source_name)
         ∧ (r.citation_text ≠ "" → out.citation_text = r.citation_text)
         ∧ (pyTruthyO r.version = true → out.version = r.version)
         ∧ (r.source_name = "" ∧ source_name ≠ "" → out.source_name = source_name)
         ∧ (r.citation_text = "" ∧ citation_text ≠ "" → out.citation_text = citation_text)
         ∧ (pyTruthyO r.version = false ∧ pyTruthyO version = true → out.version = version)
         ∧ (source_name = "" → out.source_name = r.source_name)
         ∧ (citation_text = "" → out.citation_text = r.citation_text)
         ∧ (pyTruthyO version = false → out.version = r.version)))
    ∧ (∀ store : List Source,
        (∀ x ∈ store, ¬(x.source_type = "publication" ∧ x.source_url = source_url)) →
        get_or_create_publication_source store source_name source_url citation_text version
          = (freshPublicationSource source_name source_url citation_text version,
             store ++ [freshPublicationSource source_name source_url citation_text version])) := by
  intro source_name source_url citation_text version
  constructor
  · intro store₁ store₂ r h₁ hr1 hr2
    have hfound := updateFirstOrAppend_found
      (fun x => x.source_type == "publication" && x.source_url == source_url)
      (backfillSource source_name citation_text version)
      (freshPublicationSource source_name source_url citation_text version)
      store₁ r store₂
      (fun x hx => pubPred_false x source_url (h₁ x hx))
      (by simp [hr1, hr2])
    have hout : get_or_create_publication_source (store₁ ++ r :: store₂)
        source_name source_url citation_text version
        = (backfillSource source_name citation_text version r,
           store₁ ++ backfillSource source_name citation_text version r :: store₂) := by
      simpa [get_or_create_publication_source] using hfound
    rw [hout]
    obtain ⟨ht, hu, hn, hc, hv⟩ :=
      backfillSource_fields source_name citation_text version r
    refine ⟨rfl, ht, hu, ?_, ?_, ?_, ?_, ?_, ?_, ?_, ?_, ?_⟩
    · intro hpop
      rw [hn, if_neg (by simp [hpop])]
    · intro hpop
      rw [hc, if_neg (by simp [hpop])]
    · intro hpop
      rw [hv, if_neg (by simp [hpop])]
    · intro ⟨hemp, harg⟩
      rw [hn, if_pos ⟨harg, hemp⟩]
    · intro ⟨hemp, harg⟩
      rw [hc, if_pos ⟨harg, hemp⟩]
    · intro ⟨hemp, harg⟩
      rw [hv, if_pos ⟨harg, hemp⟩]
    · intro harg
      rw [hn, if_neg (by simp [harg])]
    · intro harg
      rw [hc, if_neg (by simp [harg])]
    · intro harg
      rw [hv, if_neg (by simp [harg])]
  · intro store h₁
    have hmiss := updateFirstOrAppend_not_found
      (fun x => x.source_type == "publication" && x.source_url == source_url)
      (backfillSource source_name citation_text version)
      (freshPublicationSource source_name source_url citation_text version)
      store
      (fun x hx => pubPred_false x source_url (h₁ x hx))
    simpa [get_or_create_publication_source] using hmiss

/-- Witness for C8: backfilling a row created with no name/citation fills
them; a populated name is preserved; a miss inserts the fresh row. -/
theorem get_or_create_publication_source_witness :
    get_or_create_publication_source [⟨"publication", "", "u1", "", none⟩]
        "Paper A" "u1" "Cite A" (some "v1")
      = (⟨"publication", "Paper A", "u1", "Cite A", some "v1"⟩,
         [⟨"publication", "Paper A", "u1", "Cite A", some "v1"⟩])
    ∧ (get_or_create_publication_source [⟨"publication", "Old name", "u1", "Old cite", some "v0"⟩]
        "Paper A" "u1" "Cite A" (some "v1")).1.source_name = "Old name"
    ∧ get_or_create_publication_source [] "Paper A" "u1" "Cite A" (some "v1")
      = (freshPublicationSource "Paper A" "u1" "Cite A" (some "v1"),
         [freshPublicationSource "Paper A" "u1" "Cite A" (some "v1")]) := by
  refine ⟨by decide, ?_, ?_⟩
  · exact (((get_or_create_publication_source_spec "Paper A" "u1" "Cite A" (some "v1")).1
      [] [] ⟨"publication", "Old name", "u1", "Old cite", some "v0"⟩
      (fun x hx => absurd hx (List.not_mem_nil x)) rfl rfl).2).2.2.1 (by decide)
  · exact (get_or_create_publication_source_spec "Paper A" "u1" "Cite A" (some "v1")).2
      [] (fun x hx => absurd hx (List.not_mem_nil x))

/-- Shared shape of the three stage batch selections: the batch contains
only rows passing the status filter, respects the limit, and is sorted
under the stage's comparison. -/
theorem batch_select_spec {p : FailedSearch → Bool} {r : FailedSearch → FailedSearch → Prop}
    [DecidableRel r] [IsTotal FailedSearch r] [IsTrans FailedSearch r]
    (rows : List FailedSearch) (limit : Nat) :
    List.Forall (fun x => p x = true) (((rows.filter p).insertionSort r).take limit)
    ∧ (((rows.filter p).insertionSort r).take limit).length ≤ limit
    ∧ List.Sorted r (((rows.filter p).insertionSort r).take limit) := by
  refine ⟨?_, ?_, ?_⟩
  · rw [List.forall_iff_forall_mem]
    intro x hx
    have hx₁ : x ∈ (rows.filter p).insertionSort r :=
      (List.take_sublist _ _).subset hx
    have hx₂ : x ∈ rows.filter p :=
      (List.perm_insertionSort r (rows.filter p)).subset hx₁
    exact (List.mem_filter.mp hx₂).2
  · rw [List.length_take]
    exact min_le_left _ _
  · exact pairwise_take limit _ (List.sorted_insertionSort r _)

/-- C6 (as corrected): only the triage stage selects its batch by
(occurrence count descending, last-seen descending); the candidate-discovery
stage orders by last-seen descending alone, and the extraction stage by
last-seen ascending (oldest first).  Each stage filters on its status and
respects its limit. -/
theorem stage_batch_order_spec : ∀ (rows : List FailedSearch) (limit : Nat),
    List.Forall (fun x => x.status = "new") (select_new_batch rows limit)
    ∧ (select_new_batch rows limit).length ≤ limit
    ∧ List.Sorted triageGe (select_new_batch rows limit)
    ∧ List.Forall (fun x => x.status = "queued") (select_queued_batch rows limit)
    ∧ (select_queued_batch rows limit).length ≤ limit
    ∧ List.Sorted recentGe (select_queued_batch rows limit)
    ∧ List.Forall (fun x => x.status = "candidates_done")
        (select_candidates_done_batch rows limit)
    ∧ (select_candidates_done_batch rows limit).length ≤ limit
    ∧ List.Sorted oldestLe (select_candidates_done_batch rows limit) := by
  intro rows limit
  obtain ⟨h1, h2, h3⟩ :=
    batch_select_spec (p := fun x => x.status == "new") (r := triageGe) rows limit
  obtain ⟨h4, h5, h6⟩ :=
    batch_select_spec (p := fun x => x.status == "queued") (r := recentGe) rows limit
  obtain ⟨h7, h8, h9⟩ :=
    batch_select_spec (p := fun x => x.status == "candidates_done") (r := oldestLe) rows limit
  exact ⟨h1.imp (fun x hx => by simpa using hx), h2, h3,
         h4.imp (fun x hx => by simpa using hx), h5, h6,
         h7.imp (fun x hx => by simpa using hx), h8, h9⟩

/-- Counterexample for C6 as stated: in the candidate-discovery stage the
row with the smaller occurrence count but more recent last-seen time comes
first, and in the extraction stage the oldest row comes first — neither
stage orders by "higher occurrence count first, then most recent". -/
theorem stage_batch_order_counterexample :
    select_queued_batch
        [⟨"a", "a", 5, "queued", 1⟩, ⟨"b", "b", 1, "queued", 2⟩] 10
      = [⟨"b", "b", 1, "queued", 2⟩, ⟨"a", "a", 5, "queued", 1⟩]
    ∧ select_candidates_done_batch
        [⟨"c", "c", 5, "candidates_done", 2⟩, ⟨"d", "d", 1, "candidates_done", 1⟩] 10
      = [⟨"d", "d", 1, "candidates_done", 1⟩, ⟨"c", "c", 5, "candidates_done", 2⟩] := by
  decide

/-- Closed form of the raw additive score: each keyword list contributes
its weight once per *contained phrase* (`List.countP`), not per
occurrence. -/
theorem scoreHitRaw_closed (hit : PaperHit) (query : String) :
    scoreHitRaw hit query
      = (6/5) * (MEASUREMENT_KEYWORDS.countP
            (fun kw => containsSub (combinedText hit) kw.data) : ℕ)
        + unitsBoost (combinedText hit)
        - (9/5) * (LOW_VALUE_KEYWORDS.countP
            (fun kw => containsSub (normalizeText (some hit.title)) kw.data
              || containsSub (normalizeText hit.abstract) kw.data) : ℕ)
        - 3 * (OFF_DOMAIN_KEYWORDS.countP
            (fun kw => containsSub (normalizeText (some hit.title)) kw.data
              || containsSub (normalizeText hit.abstract) kw.data) : ℕ)
        + overlapBoost (normalizeText (some query)) (combinedText hit)
        + providerPrior hit.provider := by
  simp only [scoreHitRaw, measurementBoost, lowValuePenalty, offDomainPenalty]
  rw [foldl_add_indicator, foldl_sub_indicator, foldl_sub_indicator]
  ring

theorem unitsBoost_of_true {c : List Char}
    (h : (containsSub c "mg/100g".data || containsSub c "g/100g".data) = true) :
    unitsBoost c = 5/2 := by
  simp [unitsBoost, h]

theorem unitsBoost_of_false {c : List Char}
    (h : (containsSub c "mg/100g".data || containsSub c "g/100g".data) = false) :
    unitsBoost c = 0 := by
  simp [unitsBoost, h]

theorem overlapBoost_of_empty {q c : List Char} (h : (tokensOf q).isEmpty = true) :
    overlapBoost q c = 0 := by
  simp [overlapBoost, h]

theorem overlapBoost_of_nonempty {q c : List Char} (h : (tokensOf q).isEmpty = false) :
    overlapBoost q c = (min 3 (tokenOverlap q c) : ℕ) * (9/10) := by
  simp [overlapBoost, h]

/-- Evaluation helper: plug computed counts and component values into the
closed form. -/
theorem scoreHitRaw_eval (hit : PaperHit) (query : String) (m l o : ℕ) (ub ov pp : ℚ)
    (hm : MEASUREMENT_KEYWORDS.countP
        (fun kw => containsSub (combinedText hit) kw.data) = m)
    (hl : LOW_VALUE_KEYWORDS.countP
        (fun kw => containsSub (normalizeText (some hit.title)) kw.data
          || containsSub (normalizeText hit.abstract) kw.data) = l)
    (ho : OFF_DOMAIN_KEYWORDS.countP
        (fun kw => containsSub (normalizeText (some hit.title)) kw.data
          || containsSub (normalizeText hit.abstract) kw.data) = o)
    (hu : unitsBoost (combinedText hit) = ub)
    (hov : overlapBoost (normalizeText (some query)) (combinedText hit) = ov)
    (hp : providerPrior hit.provider = pp) :
    scoreHitRaw hit query = (6/5) * m + ub - (9/5) * l - 3 * o + ov + pp := by
  rw [scoreHitRaw_closed, hm, hl, ho, hu, hov, hp]

/-- C7 (as corrected): the raw additive score adds 1.2 once for each
measurement keyword that occurs at least once in the combined text, and
subtracts 1.8 once for each low-value phrase that occurs at least once in
the title or abstract — the contribution depends only on which phrases
occur, not on their number of occurrences. -/
theorem score_hit_per_phrase_spec : ∀ (hit : PaperHit) (query : String),
    scoreHitRaw hit query
      = (6/5) * (MEASUREMENT_KEYWORDS.countP
            (fun kw => containsSub (combinedText hit) kw.data) : ℕ)
        + unitsBoost (combinedText hit)
        - (9/5) * (LOW_VALUE_KEYWORDS.countP
            (fun kw => containsSub (normalizeText (some hit.title)) kw.data
              || containsSub (normalizeText hit.abstract) kw.data) : ℕ)
        - 3 * (OFF_DOMAIN_KEYWORDS.countP
            (fun kw => containsSub (normalizeText (some hit.title)) kw.data
              || containsSub (normalizeText hit.abstract) kw.data) : ℕ)
        + overlapBoost (normalizeText (some query)) (combinedText hit)
        + providerPrior hit.provider :=
  fun hit query => scoreHitRaw_closed hit query

/-- A hit whose title contains "review" twice. -/
def hitReviewTwice : PaperHit := ⟨"x", "Review review", none, "", none, none, none, none⟩

/-- A hit whose title contains "review" once. -/
def hitReviewOnce : PaperHit := ⟨"x", "Review", none, "", none, none, none, none⟩

/-- A hit whose title contains "hplc" twice. -/
def hitHplcTwice : PaperHit := ⟨"x", "hplc hplc", none, "", none, none, none, none⟩

/-- Counterexample for C7 as stated: "review" occurs twice in the title of
`hitReviewTwice` yet the raw score is the same −1.8 as with a single
occurrence, not −3.6; likewise "hplc" occurring twice earns +1.2 once, not
+2.4.  The contribution is therefore not proportional to the number of
occurrences. -/
theorem score_hit_per_occurrence_counterexample :
    countOcc (normalizeText (some hitReviewTwice.title)) "review".data = 2
    ∧ scoreHitRaw hitReviewTwice "" = -(9/5)
    ∧ scoreHitRaw hitReviewOnce "" = -(9/5)
    ∧ scoreHitRaw hitReviewTwice "" ≠ 2 * -(9/5)
    ∧ countOcc (normalizeText (some hitHplcTwice.title)) "hplc".data = 2
    ∧ scoreHitRaw hitHplcTwice "" = 6/5
    ∧ scoreHitRaw hitHplcTwice "" ≠ 2 * (6/5) := by
  have hRR : scoreHitRaw hitReviewTwice "" = -(9/5) := by
    rw [scoreHitRaw_eval hitReviewTwice "" 0 1 0 0 0 0
      (by decide) (by decide) (by decide)
      (unitsBoost_of_false (by decide)) (overlapBoost_of_empty (by decide)) (by decide)]
    norm_num
  have hR1 : scoreHitRaw hitReviewOnce "" = -(9/5) := by
    rw [scoreHitRaw_eval hitReviewOnce "" 0 1 0 0 0 0
      (by decide) (by decide) (by decide)
      (unitsBoost_of_false (by decide)) (overlapBoost_of_empty (by decide)) (by decide)]
    norm_num
  have hH : scoreHitRaw hitHplcTwice "" = 6/5 := by
    rw [scoreHitRaw_eval hitHplcTwice "" 1 0 0 0 0 0
      (by decide) (by decide) (by decide)
      (unitsBoost_of_false (by decide)) (overlapBoost_of_empty (by decide)) (by decide)]
    norm_num
  refine ⟨by decide, hRR, hR1, ?_, by decide, hH, ?_⟩
  · rw [hRR]; norm_num
  · rw [hH]; norm_num

/-- C9: for every finite raw score the logistic squash
`1/(1 + 2.718281828^(-raw/2.5))` lies strictly between 0 and 1, so the
final clamp of `score_hit` is the identity (its branches are dead code) and
every produced score is strictly inside the unit interval. -/
theorem score_hit_squash_strict_spec :
    ∀ (raw : ℚ) (hit : PaperHit) (query : String),
    0 < squash raw
    ∧ squash raw < 1
    ∧ clamp01 (squash raw) = squash raw
    ∧ 0 < ScoredHit.score (score_hit hit query)
    ∧ ScoredHit.score (score_hit hit query) < 1 := by
  intro raw hit query
  refine ⟨squash_pos raw, squash_lt_one raw, clamp01_squash raw, ?_, ?_⟩
  · rw [scoredHit_score_eq]
    exact squash_pos _
  · rw [scoredHit_score_eq]
    exact squash_lt_one _

/-- A hit whose title carries the unit token and the composition phrase. -/
def exampleHitUnits : PaperHit :=
  ⟨"pubmed", "Amino acid composition mg/100g", none, "", none, none, none, none⟩

/-- An otherwise-identical hit marked as a systematic review in its title. -/
def exampleHitReview : PaperHit :=
  ⟨"pubmed", "Systematic review", none, "", none, none, none, none⟩

theorem raw_exampleHitUnits :
    scoreHitRaw exampleHitUnits "lysine chickpeas" = 83/10 := by
  have hov : overlapBoost (normalizeText (some "lysine chickpeas"))
      (combinedText exampleHitUnits) = 0 := by
    rw [overlapBoost_of_nonempty (by decide)]
    rw [show tokenOverlap (normalizeText (some "lysine chickpeas"))
        (combinedText exampleHitUnits) = 0 from by decide]
    norm_num
  rw [scoreHitRaw_eval exampleHitUnits "lysine chickpeas" 4 0 0 (5/2) 0 1
    (by decide) (by decide) (by decide)
    (unitsBoost_of_true (by decide)) hov (by decide)]
  norm_num

theorem raw_exampleHitReview :
    scoreHitRaw exampleHitReview "lysine chickpeas" = -13/5 := by
  have hov : overlapBoost (normalizeText (some "lysine chickpeas"))
      (combinedText exampleHitReview) = 0 := by
    rw [overlapBoost_of_nonempty (by decide)]
    rw [show tokenOverlap (normalizeText (some "lysine chickpeas"))
        (combinedText exampleHitReview) = 0 from by decide]
    norm_num
  rw [scoreHitRaw_eval exampleHitReview "lysine chickpeas" 0 2 0 0 0 1
    (by decide) (by decide) (by decide)
    (unitsBoost_of_false (by decide)) hov (by decide)]
  norm_num

/-- C3: `rank_hits` returns at most `top_n` hits, in non-increasing score
order, with every score in `[0, 1]`; ties are broken by insertion order
(for every raw-score value, the survivors with that value form a prefix of
the scored input's subsequence with that value — a stable sort); and the
hit whose title contains "mg/100g" and "amino acid composition" receives a
strictly higher score than, and outranks, the otherwise-identical hit
titled "systematic review". -/
theorem rank_hits_spec : ∀ (hits : List PaperHit) (query : String) (top_n : Nat),
    (rank_hits hits query top_n).length ≤ top_n
    ∧ List.Sorted (fun a b => ScoredHit.score b ≤ ScoredHit.score a)
        (rank_hits hits query top_n)
    ∧ (∀ s : ScoredHit, 0 ≤ ScoredHit.score s ∧ ScoredHit.score s ≤ 1)
    ∧ (∀ v : ℚ, ∃ rest,
        (rank_hits hits query top_n).filter (fun s => s.raw == v) ++ rest
          = ((hits.map (fun h => score_hit h query)).filter (fun s => s.raw == v)))
    ∧ ScoredHit.score (score_hit exampleHitReview "lysine chickpeas")
        < ScoredHit.score (score_hit exampleHitUnits "lysine chickpeas")
    ∧ rank_hits [exampleHitUnits, exampleHitReview] "lysine chickpeas" 5
        = [score_hit exampleHitUnits "lysine chickpeas",
           score_hit exampleHitReview "lysine chickpeas"] := by
  intro hits query top_n
  have hlt : scoreHitRaw exampleHitReview "lysine chickpeas"
      < scoreHitRaw exampleHitUnits "lysine chickpeas" := by
    rw [raw_exampleHitUnits, raw_exampleHitReview]
    norm_num
  refine ⟨?_, ?_, ?_, ?_, ?_, ?_⟩
  · simp only [rank_hits]
    rw [List.length_take]
    exact min_le_left _ _
  · have hs := pairwise_take top_n _
      (List.sorted_insertionSort rankerGe (hits.map (fun h => score_hit h query)))
    exact hs.imp (fun hab => (scoredHit_score_le_iff _ _).mpr hab)
  · intro s
    constructor
    · rw [scoredHit_score_eq]
      exact le_of_lt (squash_pos _)
    · rw [scoredHit_score_eq]
      exact le_of_lt (squash_lt_one _)
  · intro v
    refine ⟨(((hits.map (fun h => score_hit h query)).insertionSort rankerGe).drop
        top_n).filter (fun s => s.raw == v), ?_⟩
    simp only [rank_hits]
    rw [← List.filter_append, List.take_append_drop, filter_insertionSort_raw]
  · rw [scoredHit_score_eq, scoredHit_score_eq]
    exact squash_strictMono hlt
  · have hge : rankerGe (score_hit exampleHitUnits "lysine chickpeas")
        (score_hit exampleHitReview "lysine chickpeas") := le_of_lt hlt
    simp [rank_hits, List.insertionSort, List.orderedInsert, hge]

/-! ### Cache round-trip lemmas for `fetch_fulltext_offline_first` -/

theorem applyIdconv_pmc_xml (res : Except String ResolvedIds) (doc : FullTextDoc) :
    (applyIdconv res doc).pmc_xml = doc.pmc_xml := by
  cases res with
  | error e => rfl
  | ok r =>
    cases hw : r.warning with
    | none => simp [applyIdconv, hw]
    | some w => by_cases hw' : w = "" <;> simp [applyIdconv, hw, hw']

theorem applyPmcStep_pmc_xml (net : Network) (doc : FullTextDoc)
    (h : doc.pmc_xml = none) :
    (applyPmcStep net doc).pmc_xml = none
    ∨ ∃ s, (applyPmcStep net doc).pmc_xml = some s ∧ s ≠ "" := by
  unfold applyPmcStep
  cases hp : doc.pmcid with
  | none => left; simp [h]
  | some p =>
    by_cases hpe : p = ""
    · left; simp [hpe, h]
    · cases hx : fetch_pmc_xml net p with
      | error e => left; simp [hpe, hx, h]
      | ok o =>
        cases o with
        | none => left; simp [hpe, hx, h]
        | some x =>
          by_cases hxe : x = ""
          · left; simp [hpe, hx, hxe, h]
          · right; exact ⟨x, by simp [hpe, hx, hxe], hxe⟩

/-- The document computed on a cache miss never carries an empty XML body:
its `pmc_xml` is `none` or a non-empty string (Python's `if xml:` guard). -/
theorem fetchCompute_pmc_xml (net : Network) (title url : String)
    (doi pmid pmcid : Option String) :
    (fetchCompute net title url doi pmid pmcid).pmc_xml = none
    ∨ ∃ s, (fetchCompute net title url doi pmid pmcid).pmc_xml = some s ∧ s ≠ "" := by
  unfold fetchCompute
  apply applyPmcStep_pmc_xml
  rw [applyIdconv_pmc_xml]

theorem read_cache_none_iff (cache : Cache) (key : String) :
    read_cache cache key = none ↔ cache.meta.lookup key = none := by
  unfold read_cache
  cases cache.meta.lookup key <;> simp

/-- Writing a well-formed document and reading the same key back returns
that document, provided no orphaned XML file shadows an absent body. -/
theorem read_write_cache_eq (cache : Cache) (key : String) (doc : FullTextDoc)
    (h : doc.pmc_xml = none ∨ ∃ s, doc.pmc_xml = some s ∧ s ≠ "")
    (hx : doc.pmc_xml = none → cache.xml.lookup key = none) :
    read_cache (write_cache cache key doc) key = some doc := by
  obtain ⟨t, su, d, pm, pc, px, pr, w⟩ := doc
  rcases h with h | ⟨s, hs, hne⟩
  · simp only at h
    subst h
    simp [read_cache, write_cache, List.lookup, pyTruthyO, hx rfl]
  · simp only at hs
    subst hs
    simp [read_cache, write_cache, List.lookup, pyTruthyO, hne]

theorem read_write_cache_isSome (cache : Cache) (key : String) (doc : FullTextDoc) :
    (read_cache (write_cache cache key doc) key).isSome = true := by
  simp [read_cache, write_cache, List.lookup]

/-- Definitional unfolding of `fetch_fulltext_offline_first`. -/
theorem fetch_unfold (net : Network) (cache : Cache) (title url : String)
    (doi0 : Option String) :
    fetch_fulltext_offline_first net cache title url doi0
      = match read_cache cache (fetchKey title url doi0) with
        | some cached => (cached, cache)
        | none =>
          (fetchCompute net title url
             (pyOr (pyOr doi0 (extract_doi url)) (extract_doi title))
             (extract_pmid_from_url url)
             (pyOr (extract_pmcid url) (extract_pmcid title)),
           write_cache cache (fetchKey title url doi0)
             (fetchCompute net title url
               (pyOr (pyOr doi0 (extract_doi url)) (extract_doi title))
               (extract_pmid_from_url url)
               (pyOr (extract_pmcid url) (extract_pmcid title)))) := rfl

/-- C5: `fetch_fulltext_offline_first` is offline-first with a write-through
cache.  If the cache holds an entry for the computed key, that document is
returned with the cache unchanged, for every network oracle — no network
access.  Otherwise the outcome is written under the key before returning
(`isSome` of the re-read), and a second call with the same arguments —
under any network oracle — returns the pair produced by the first call:
the same document and the same cache.  The hypothesis of the last part
rules out an orphaned XML cache file without its metadata file, a state
the function itself never creates. -/
theorem fetch_fulltext_offline_first_spec :
    ∀ (net net' : Network) (cache : Cache) (title url : String) (doi0 : Option String),
    (∀ d₀, read_cache cache (fetchKey title url doi0) = some d₀ →
        fetch_fulltext_offline_first net cache title url doi0 = (d₀, cache))
    ∧ (read_cache (fetch_fulltext_offline_first net cache title url doi0).2
         (fetchKey title url doi0)).isSome = true
    ∧ ((cache.meta.lookup (fetchKey title url doi0) = none →
          cache.xml.lookup (fetchKey title url doi0) = none) →
        fetch_fulltext_offline_first net'
            (fetch_fulltext_offline_first net cache title url doi0).2 title url doi0
          = fetch_fulltext_offline_first net cache title url doi0) := by
  intro net net' cache title url doi0
  refine ⟨?_, ?_, ?_⟩
  · intro d₀ h
    rw [fetch_unfold, h]
  · cases h : read_cache cache (fetchKey title url doi0) with
    | some d₀ =>
      rw [fetch_unfold, h]
      simp [h]
    | none =>
      rw [fetch_unfold, h]
      exact read_write_cache_isSome cache (fetchKey title url doi0) _
  · intro horphan
    cases h : read_cache cache (fetchKey title url doi0) with
    | some d₀ =>
      have h1 : fetch_fulltext_offline_first net cache title url doi0 = (d₀, cache) := by
        rw [fetch_unfold, h]
      have h2 : fetch_fulltext_offline_first net' cache title url doi0 = (d₀, cache) := by
        rw [fetch_unfold, h]
      rw [h1]
      exact h2
    | none =>
      have hmeta : cache.meta.lookup (fetchKey title url doi0) = none :=
        (read_cache_none_iff cache (fetchKey title url doi0)).mp h
      have hxml := horphan hmeta
      have h1 : fetch_fulltext_offline_first net cache title url doi0
          = (fetchCompute net title url
               (pyOr (pyOr doi0 (extract_doi url)) (extract_doi title))
               (extract_pmid_from_url url)
               (pyOr (extract_pmcid url) (extract_pmcid title)),
             write_cache cache (fetchKey title url doi0)
               (fetchCompute net title url
                 (pyOr (pyOr doi0 (extract_doi url)) (extract_doi title))
                 (extract_pmid_from_url url)
                 (pyOr (extract_pmcid url) (extract_pmcid title)))) := by
        rw [fetch_unfold, h]
      have hread : read_cache
          (write_cache cache (fetchKey title url doi0)
            (fetchCompute net title url
              (pyOr (pyOr doi0 (extract_doi url)) (extract_doi title))
              (extract_pmid_from_url url)
              (pyOr (extract_pmcid url) (extract_pmcid title))))
          (fetchKey title url doi0)
          = some (fetchCompute net title url
              (pyOr (pyOr doi0 (extract_doi url)) (extract_doi title))
              (extract_pmid_from_url url)
              (pyOr (extract_pmcid url) (extract_pmcid title))) :=
        read_write_cache_eq cache (fetchKey title url doi0) _
          (fetchCompute_pmc_xml net title url _ _ _)
          (fun _ => hxml)
      have h2 : fetch_fulltext_offline_first net'
          (write_cache cache (fetchKey title url doi0)
            (fetchCompute net title url
              (pyOr (pyOr doi0 (extract_doi url)) (extract_doi title))
              (extract_pmid_from_url url)
              (pyOr (extract_pmcid url) (extract_pmcid title))))
          title url doi0
          = (fetchCompute net title url
               (pyOr (pyOr doi0 (extract_doi url)) (extract_doi title))
               (extract_pmid_from_url url)
               (pyOr (extract_pmcid url) (extract_pmcid title)),
             write_cache cache (fetchKey title url doi0)
               (fetchCompute net title url
                 (pyOr (pyOr doi0 (extract_doi url)) (extract_doi title))
                 (extract_pmid_from_url url)
                 (pyOr (extract_pmcid url) (extract_pmcid title)))) := by
        rw [fetch_unfold, hread]
      rw [h1]
      exact h2

/-- A network oracle on which every external call fails. -/
def netDown : Network :=
  { idconv := fun _ => .error "offline", efetch := fun _ => .error "offline" }

/-- An empty disk cache. -/
def emptyCache : Cache := { meta := [], xml := [] }

/-- A cache holding one metadata entry under the key of `("t", "u", none)`. -/
def cacheWithEntry : Cache :=
  { meta := [("t||u", { title := "t", source_url := "u", doi := none,
                        pmid := none, pmcid := none, provider := "cached",
                        warnings := [] })],
    xml := [] }

/-- The document `cacheWithEntry` stores. -/
def docT : FullTextDoc :=
  { title := "t", source_url := "u", doi := none, pmid := none, pmcid := none,
    pmc_xml := none, provider := "cached", warnings := [] }

/-- Witness for C5: at `("t", "u", none)` the cached entry is returned with
the cache unchanged, and on an empty cache the second call reproduces the
first call's document and cache. -/
theorem fetch_fulltext_offline_first_witness :
    fetch_fulltext_offline_first netDown cacheWithEntry "t" "u" none
      = (docT, cacheWithEntry)
    ∧ fetch_fulltext_offline_first netDown
        (fetch_fulltext_offline_first netDown emptyCache "t" "u" none).2 "t" "u" none
      = fetch_fulltext_offline_first netDown emptyCache "t" "u" none :=
  ⟨(fetch_fulltext_offline_first_spec netDown netDown cacheWithEntry "t" "u" none).1
      docT (by decide),
   (fetch_fulltext_offline_first_spec netDown netDown emptyCache "t" "u" none).2.2
      (by decide)⟩
